import Mathlib

/-!
Verification of the flow-decomposition core of `hh_tools.flowdecomp`
(`Decomposer` and its helpers).

Shallow embedding conventions:

* A pandas timestamp is modelled as a `Time` (minutes since a reference
  epoch).  Calendar attributes of a timestamp (`.month`, `.weekday`,
  `.hour`) are supplied by a `Clock` record so that theorems quantify over
  the calendar; a concrete clock for the year 2024 (whose January 1st is a
  Monday) instantiates witnesses.  Timezone localization to a fixed zone is
  modelled as the identity on the minute grid.
* A float value is modelled as `Val := Option ℚ`:  `none` stands for
  `NaN`/missing, `some q` for the finite value `q`.  Pandas' NaN-skipping
  mean and sum become `nanMean` and `nanSum`.  Claims stated "to
  floating-point tolerance" become exact statements over `ℚ`.
* A pandas `Series` is a `List (Time × Val)`; a column extracted from an
  aligned frame is a bare `List Val`.
* Python's `round` on a float is round-half-to-even (`pythonRound`).
* The `scipy` two-stage optimisation inside `Decomposer.fit` is opaque
  numerical code; `fit` takes it as an explicit function parameter
  (`RtkStage`), which none of the verified claims execute.
-/

attribute [local semireducible] Rat.mul Rat.inv Rat.add Rat.sub

/-- Minutes since the reference epoch (Monday 2024-01-01 00:00). -/
abbrev Time := Nat

/-- A float cell: `none` is `NaN` (or a missing value), `some q` is finite. -/
abbrev Val := Option ℚ

/-- Calendar attributes of a timestamp, as pandas exposes them on a
`DatetimeIndex` (`.month` in 1..12, `.weekday` with Monday = 0, `.hour`
in 0..23). -/
structure Clock where
  month : Time → Nat
  weekday : Time → Nat
  hour : Time → Nat

/-- Addition of float cells; `NaN` propagates. -/
def vadd : Val → Val → Val
  | some a, some b => some (a + b)
  | _, _ => none

/-- Subtraction of float cells; `NaN` propagates. -/
def vsub : Val → Val → Val
  | some a, some b => some (a - b)
  | _, _ => none

/-- Pandas NaN-skipping sum of a column (`Series.sum`); the sum of an
all-NaN column is `0`. -/
def nanSum (l : List Val) : ℚ :=
  (l.filterMap id).sum

/-- Pandas NaN-skipping mean of a column (`Series.mean`); the mean of an
all-NaN column is `NaN`. -/
def nanMean (l : List Val) : Val :=
  let v := l.filterMap id
  if v.length = 0 then none else some (v.sum / v.length)

/-- Python 3 `round` on an exact value: round half to even. -/
def pythonRound (q : ℚ) : ℤ :=
  let f := ⌊q⌋
  let r := q - f
  if r < 1/2 then f
  else if 1/2 < r then f + 1
  else if f % 2 = 0 then f else f + 1

/-- The configuration carried by a `Decomposer` instance: the constructor
arguments of `Decomposer.__init__`.  `interval` is the resampling interval
in minutes (`pd.to_timedelta(interval)`), `gwi_avg` distinguishes Python
`None` (`none`) from a stored float (`some v`, itself possibly `NaN`), and
the `dry_criteria` dict is flattened into its two entries. -/
structure Decomposer where
  interval : Nat
  tz : String
  gwi_mode : String
  gwi_avg : Option Val
  gwi_monthly : List ℚ
  lookback_h : ℚ
  rain_thresh : ℚ
  rtk_components : Nat
  optimize_method : String
  clip_negative : Bool
  deriving DecidableEq

/-- An RTK response triplet as recorded in `params["rtk_triplets"]`. -/
structure RTKTriplet where
  R : ℚ
  T_hours : ℚ
  K : ℚ
  deriving DecidableEq

/-- `Decomposer._rtk_uh`: the triangular SWMM-style unit hydrograph.
`tp = max(int(round(T / interval_h)), 1)`, `L = int(round((1 + K) * tp))`,
a linear rise to the peak and a linear recession, normalised to unit area
and scaled by `R`.  (When the raw area is zero the source divides by zero,
producing NaN entries; over `ℚ` the division yields `0`.) -/
def rtk_uh (R T K interval_h : ℚ) : List ℚ :=
  let tp : ℤ := max (pythonRound (T / interval_h)) 1
  let L : Nat := (pythonRound ((1 + K) * (tp : ℚ))).toNat
  let uh := (List.range L).map (fun (i : Nat) =>
    if (i : ℚ) ≤ (tp : ℚ) then (i : ℚ) / (tp : ℚ)
    else max (1 - ((i : ℚ) - (tp : ℚ)) / (K * (tp : ℚ))) 0)
  let s := uh.sum
  uh.map (fun x => R * (x / s))

/-- The peak index `tp` used by `rtk_uh`, exposed for statements. -/
def rtk_tp (T interval_h : ℚ) : ℤ :=
  max (pythonRound (T / interval_h)) 1

/-- The hydrograph length computed by the source:
`int(round((1 + K) * tp))`. -/
def rtk_len (T K interval_h : ℚ) : Nat :=
  (pythonRound ((1 + K) * (rtk_tp T interval_h : ℚ))).toNat

/-- Modelled from the spec: the hydrograph length the specification
states, `round((1+K) × (T/interval))`, for comparison with `rtk_len`. -/
def spec_rtk_len (T K interval_h : ℚ) : Nat :=
  (pythonRound ((1 + K) * (T / interval_h))).toNat

/-- Value of a pandas series at an exact timestamp label: `none` when the
label is absent (the reindex fill) or when the stored value is `NaN`. -/
def lookupT : List (Time × Val) → Time → Val
  | [], _ => none
  | p :: rest, t => if p.1 = t then p.2 else lookupT rest t

/-- Insert a row into a list sorted by timestamp (stable). -/
def insertByTime (p : Time × Val) : List (Time × Val) → List (Time × Val)
  | [] => [p]
  | q :: rest => if p.1 < q.1 then p :: q :: rest else q :: insertByTime p rest

/-- `sort_index()`: stable ascending sort of a series by timestamp. -/
def sortByTime : List (Time × Val) → List (Time × Val)
  | [] => []
  | p :: rest => insertByTime p (sortByTime rest)

/-- The uniform grid built by `asfreq`: timestamps from `t0` to the last
timestamp (inclusive), stepping by `d` minutes. -/
def gridTimes (t0 d last : Time) : List Time :=
  (List.range ((last - t0) / d + 1)).map (fun k => t0 + k * d)

/-- Last valid (non-`NaN`) position strictly before `p`, with its value. -/
def findPrev (vals : List Val) (p : Nat) : Option (Nat × ℚ) :=
  (List.range p).reverse.findSome? (fun i => (vals.getD i none).map (fun a => (i, a)))

/-- First valid (non-`NaN`) position strictly after `p`, with its value. -/
def findNext (vals : List Val) (p : Nat) : Option (Nat × ℚ) :=
  ((List.range (vals.length - (p + 1))).map (fun k => p + 1 + k)).findSome?
    (fun j => (vals.getD j none).map (fun b => (j, b)))

/-- Whether a fill distance is within the `limit` option. -/
def limitOK : Option Nat → Nat → Bool
  | none, _ => true
  | some L, dist => dist ≤ L

/-- The fill value `Series.interpolate` (default linear method, positional)
assigns to a `NaN` at position `p`: linear interpolation between the
surrounding valid values, constant continuation at the edges; filled only
within `limit` of the previous valid value (always, in direction
"forward") or of the next valid value (when `both` directions are
allowed). -/
def interpFill (limit : Option Nat) (both : Bool) (vals : List Val) (p : Nat) : Val :=
  let pv := findPrev vals p
  let nv := findNext vals p
  let fOK := match pv with
    | some iq => limitOK limit (p - iq.1)
    | none => false
  let bOK := both && (match nv with
    | some jq => limitOK limit (jq.1 - p)
    | none => false)
  if fOK || bOK then
    match pv, nv with
    | some (i, a), some (j, b) => some (a + (b - a) * (((p : ℚ) - (i : ℚ)) / ((j : ℚ) - (i : ℚ))))
    | some (_, a), none => some a
    | none, some (_, b) => some b
    | none, none => none
  else none

/-- `Series.interpolate`: valid entries unchanged, `NaN` entries filled per
`interpFill`. -/
def pandasInterp (limit : Option Nat) (both : Bool) (vals : List Val) : List Val :=
  (List.range vals.length).map (fun p =>
    match vals.getD p none with
    | some v => some v
    | none => interpFill limit both vals p)

/-- `Decomposer._resample`: sort by timestamp, align onto the uniform grid
at `d` minutes (`asfreq`), and linearly interpolate gaps with
`limit=2`. -/
def resample (d : Nat) (df : List (Time × Val)) : List (Time × Val) :=
  let s := sortByTime df
  match s with
  | [] => []
  | p :: _ =>
    let lastT := (s.getLast?.getD p).1
    let grid := gridTimes p.1 d lastT
    let looked := grid.map (fun t => lookupT s t)
    grid.zip (pandasInterp (some 2) false looked)

/-- `reindex(flow.index, fill_value=0)` as applied to the rainfall series:
absent labels become `0`, present labels keep their (possibly `NaN`)
value. -/
def reindexFillZero (s : List (Time × Val)) (idx : List Time) : List Val :=
  idx.map (fun t => match s.find? (fun p => p.1 = t) with
    | some p => p.2
    | none => some 0)

/-- `reindex(flow.index)` as applied to the GWI series: absent labels
become `NaN`. -/
def reindexNaN (s : List (Time × Val)) (idx : List Time) : List Val :=
  idx.map (fun t => lookupT s t)

/-- `fillna`: replace `NaN` entries of the first column by the aligned
entries of the second. -/
def fillna (a b : List Val) : List Val :=
  List.zipWith (fun x y => match x with
    | some v => some v
    | none => y) a b

/-- The configuration errors `Decomposer._calc_gwi` raises. -/
inductive DecompError where
  | missingGwiDf
  | missingGwiAvg
  deriving DecidableEq

/-- The monthly-multiplier value `avg * gwi_monthly[m-1]`, assigned only
for months `1..12` (other positions of the target series keep their
initial `NaN`). -/
def monthMult (cfg : Decomposer) (avg : ℚ) (m : Nat) : Val :=
  if 1 ≤ m ∧ m ≤ 12 then some (avg * cfg.gwi_monthly.getD (m - 1) 0) else none

/-- `Decomposer._calc_gwi`.  In mode `timeseries` the supplied series is
reindexed to the flow index and interpolated in both directions; remaining
`NaN`s fall back to the monthly model, storing the series mean into
`self.gwi_avg` when no average was supplied (the returned configuration
carries that mutation).  In any other mode a supplied average is required
and the monthly model is used directly. -/
def calc_gwi (cfg : Decomposer) (clock : Clock) (flow_index : List Time)
    (gwi_series : Option (List (Time × Val))) :
    Except DecompError (List Val × Decomposer) :=
  if cfg.gwi_mode = "timeseries" then
    match gwi_series with
    | none => .error .missingGwiDf
    | some s =>
      let re := flow_index.map (fun t => lookupT s t)
      let gwi := pandasInterp none true re
      if gwi.any (fun v => v.isNone) then
        let cfg' := if cfg.gwi_avg.isNone then { cfg with gwi_avg := some (nanMean gwi) } else cfg
        let avgVal : Val := cfg'.gwi_avg.getD none
        let temp := flow_index.map (fun t => avgVal.bind (fun a => monthMult cfg' a (clock.month t)))
        .ok (fillna gwi temp, cfg')
      else .ok (gwi, cfg)
  else
    match cfg.gwi_avg with
    | none => .error .missingGwiAvg
    | some av =>
      .ok (flow_index.map (fun t => av.bind (fun a => monthMult cfg a (clock.month t))), cfg)

/-- Trailing rolling sum with window `lb` and `min_periods=1` over the
zero-filled rainfall column, at position `i`. -/
def rollSum (rv : List Val) (lb i : Nat) : ℚ :=
  ((List.range (min lb (i + 1))).map (fun k => (rv.getD (i - k) none).getD 0)).sum

/-- `Decomposer._find_dry`: every timestamp is dry without a rainfall
series; otherwise a timestamp is dry when the trailing rainfall
accumulation over `lookback_h / interval_h` samples is at most the
threshold. -/
def find_dry (cfg : Decomposer) (rain : Option (List Val)) (idx : List Time) : List Bool :=
  match rain with
  | none => idx.map (fun _ => true)
  | some rv =>
    let lb : Nat := (⌊cfg.lookback_h / ((cfg.interval : ℚ) / 60)⌋).toNat
    (List.range idx.length).map (fun i =>
      if i < rv.length then decide (rollSum rv lb i ≤ cfg.rain_thresh) else false)

/-- Whether a timestamp belongs to the weekday (Mon–Fri) class. -/
def inWeekday (clock : Clock) (t : Time) : Bool :=
  clock.weekday t < 5

/-- The rows of `df[mask & dry_mask]` for one weekday/weekend class:
timestamp and dry-masked sanitary value, in index order. -/
def subRows (clock : Clock) (idx : List Time) (san : List Val) (dry : List Bool)
    (wkday : Bool) : List (Time × Val) :=
  (List.range idx.length).filterMap (fun i =>
    if dry.getD i false ∧ inWeekday clock (idx.getD i 0) = wkday then
      some (idx.getD i 0, san.getD i none)
    else none)

/-- `sub.groupby("hour")["sanitary"].mean().reindex(range(24), fill_value=0)`
at hour `h`: `0` when no row of the class has that hour, otherwise the
NaN-skipping mean of the group. -/
def hourlyMean (clock : Clock) (rows : List (Time × Val)) (h : Nat) : Val :=
  let grp := rows.filter (fun r => clock.hour r.1 = h)
  if grp.length = 0 then some 0 else nanMean (grp.map Prod.snd)

/-- The per-class part of `Decomposer._calc_bwwf`: the recorded daily
average (`0` when the mean is `NaN`) and the 24-hour pattern
`norm * daily_avg * 24`, where `norm` renormalises the hourly means (or is
flat `1/24` when they sum to zero); a non-finite or non-positive daily
average yields the all-zero pattern. -/
def classPattern (clock : Clock) (rows : List (Time × Val)) : ℚ × List Val :=
  let hourly := (List.range 24).map (fun h => hourlyMean clock rows h)
  let davg := nanMean (rows.map Prod.snd)
  match davg with
  | some a =>
    if 0 < a then
      let hsum := nanSum hourly
      if hsum ≠ 0 then
        (a, hourly.map (fun v => v.map (fun x => x / hsum * a * 24)))
      else (a, (List.range 24).map (fun _ => some (1 / 24 * a * 24)))
    else (a, List.replicate 24 (some 0))
  | none => (0, List.replicate 24 (some 0))

/-- Forward fill (`ffill`), carrying the last valid value. -/
def ffillAux (cur : Val) : List Val → List Val
  | [] => []
  | v :: rest =>
    match v with
    | some a => some a :: ffillAux (some a) rest
    | none => cur :: ffillAux cur rest

/-- Forward fill a column. -/
def ffill (l : List Val) : List Val := ffillAux none l

/-- Backward fill (`bfill`) a column. -/
def bfill (l : List Val) : List Val := (ffillAux none l.reverse).reverse

/-- The diurnal-pattern record assembled by `Decomposer._calc_bwwf`
(`daily_avg_weekday`, `daily_avg_weekend`, `weekday_hourly`,
`weekend_hourly`). -/
structure PatternRec where
  daily_avg_weekday : ℚ
  daily_avg_weekend : ℚ
  weekday_hourly : List Val
  weekend_hourly : List Val
  deriving DecidableEq

/-- `Decomposer._calc_bwwf`: dry-weather sanitary residual split by
weekday/weekend, per-class hourly patterns, the pattern value projected
onto every timestamp of its class, then forward/backward filled. -/
def calc_bwwf (clock : Clock) (idx : List Time) (flow gwi : List Val)
    (dry : List Bool) : List Val × PatternRec :=
  let san := List.zipWith (fun v d => if d then v else none)
    (List.zipWith vsub flow gwi) dry
  let wk := classPattern clock (subRows clock idx san dry true)
  let we := classPattern clock (subRows clock idx san dry false)
  let bwwfRaw := idx.map (fun t =>
    (if inWeekday clock t then wk.2 else we.2).getD (clock.hour t) none)
  (bfill (ffill bwwfRaw),
   { daily_avg_weekday := wk.1, daily_avg_weekend := we.1,
     weekday_hourly := wk.2, weekend_hourly := we.2 })

/-- The parameter record `params` returned by `Decomposer.fit`. -/
structure FitParams where
  gwi_mode : String
  gwi_avg : Option Val
  gwi_monthly : List ℚ
  pattern : PatternRec
  rtk_triplets : Option (List RTKTriplet)
  fit_metrics : Option Val
  deriving DecidableEq

/-- The output of `Decomposer.fit`: the per-timestamp table columns and
the parameter record. -/
structure DecompResult where
  idx : List Time
  flow : List Val
  gwi : List Val
  bwwf : List Val
  wwf : List Val
  rainfall : Option (List Val)
  params : FitParams
  deriving DecidableEq

/-- Result of the scipy optimisation block of `Decomposer.fit`
(differential evolution followed by `L-BFGS-B`, plus the NSE metric and
the modelled WWF).  The block is opaque numerical code and is passed to
`fit` as a function of the rainfall column, the fitting target, the
interval in hours and the component count. -/
structure RtkFit where
  triplets : List RTKTriplet
  nse : Val
  model : List Val

/-- The type of the opaque optimisation stage. -/
abbrev RtkStage := List Val → List Val → ℚ → Nat → RtkFit

/-- `Decomposer.fit`.  Resamples the inputs, computes the GWI, dry-mask,
BWWF and residual-WWF stages, optionally replaces the WWF by the fitted
RTK reconstruction, and returns the output table with the parameter
record, together with the post-run configuration (the `self` object, whose
`gwi_avg` field `_calc_gwi` may have overwritten).  Timezone localization
is the identity on the modelled time grid. -/
def Decomposer.fit (rtkStage : RtkStage) (cfg : Decomposer) (clock : Clock)
    (flow_df : List (Time × Val)) (rain_df : Option (List (Time × Val)))
    (gwi_df : Option (List (Time × Val))) :
    Except DecompError DecompResult × Decomposer :=
  let flow := resample cfg.interval flow_df
  let fidx := flow.map Prod.fst
  let fvals := flow.map Prod.snd
  let rain : Option (List Val) :=
    rain_df.map (fun r => reindexFillZero (resample cfg.interval r) fidx)
  let gwi_series : Option (List (Time × Val)) :=
    gwi_df.map (fun g => fidx.zip (reindexNaN (resample cfg.interval g) fidx))
  match calc_gwi cfg clock fidx gwi_series with
  | .error e => (.error e, cfg)
  | .ok (gwi, cfg') =>
    let dry := find_dry cfg' rain fidx
    let bp := calc_bwwf clock fidx fvals gwi dry
    let wwf0 := List.zipWith vsub (List.zipWith vsub fvals gwi) bp.1
    let wwf1 := if cfg'.clip_negative then wwf0.map (Option.map (fun x => max x 0)) else wwf0
    let baseParams : FitParams :=
      { gwi_mode := cfg'.gwi_mode, gwi_avg := cfg'.gwi_avg,
        gwi_monthly := cfg'.gwi_monthly, pattern := bp.2,
        rtk_triplets := none, fit_metrics := none }
    match rain with
    | some rvals =>
      if cfg'.rtk_components ≠ 0 then
        let st := rtkStage rvals wwf1 ((cfg'.interval : ℚ) / 60) cfg'.rtk_components
        let rtkParams : FitParams :=
          { baseParams with rtk_triplets := some st.triplets, fit_metrics := some st.nse }
        (.ok { idx := fidx, flow := fvals, gwi := gwi, bwwf := bp.1, wwf := st.model,
               rainfall := some rvals, params := rtkParams }, cfg')
      else
        (.ok { idx := fidx, flow := fvals, gwi := gwi, bwwf := bp.1, wwf := wwf1,
               rainfall := some rvals, params := baseParams }, cfg')
    | none =>
      (.ok { idx := fidx, flow := fvals, gwi := gwi, bwwf := bp.1, wwf := wwf1,
             rainfall := none, params := baseParams }, cfg')

/-- Cumulative days at the start of each month of 2024 (a leap year). -/
def monthStarts2024 : List Nat :=
  [0, 31, 60, 91, 121, 152, 182, 213, 244, 274, 305, 335, 366]

/-- Month (1..12) of a day-of-year in 2024; days beyond 2024 are clamped
to December (concrete runs stay inside 2024). -/
def monthOfDay2024 (d : Nat) : Nat :=
  ((List.range 12).filter (fun m => monthStarts2024.getD m 0 ≤ d ∧
    d < monthStarts2024.getD (m + 1) 366)).headD 11 + 1

/-- The concrete calendar used by witnesses: minutes since Monday
2024-01-01 00:00 UTC. -/
def clock2024 : Clock where
  month := fun t => monthOfDay2024 (t / 1440)
  weekday := fun t => t / 1440 % 7
  hour := fun t => t / 60 % 24

/-- The raw (pre-normalisation) triangular hydrograph entry at index `i`. -/
def rtk_rawEntry (T K ih : ℚ) (i : Nat) : ℚ :=
  if (i : ℚ) ≤ ((rtk_tp T ih : ℤ) : ℚ) then (i : ℚ) / ((rtk_tp T ih : ℤ) : ℚ)
  else max (1 - ((i : ℚ) - ((rtk_tp T ih : ℤ) : ℚ)) / (K * ((rtk_tp T ih : ℤ) : ℚ))) 0

/-- The raw hydrograph before normalisation. -/
def rtk_raw (T K ih : ℚ) : List ℚ :=
  (List.range (rtk_len T K ih)).map (rtk_rawEntry T K ih)

lemma rtk_uh_eq (R T K ih : ℚ) :
    rtk_uh R T K ih = (rtk_raw T K ih).map (fun x => R * (x / (rtk_raw T K ih).sum)) := rfl

lemma sum_map_mul_div (R s : ℚ) (l : List ℚ) :
    (l.map (fun x => R * (x / s))).sum = R * l.sum / s := by
  induction l with
  | nil => simp
  | cons a t ih => simp [ih, mul_add, add_div, mul_div_assoc]

lemma one_le_rtk_tp (T ih : ℚ) : 1 ≤ rtk_tp T ih := le_max_right _ _

/-- Claim C2 (amended): for every RTK triplet within the optimizer bounds
and every positive interval, whenever the constructed hydrograph has at
least two samples (`rtk_len ≥ 2`), the unit hydrograph built by
`Decomposer._rtk_uh` sums to exactly `R`, independent of `T` and `K`.
(When `rtk_len = 1` the single raw sample is `0` and the source divides by
zero, so the sum is not `R` — see `rtk_uh_sum_degenerate`.) -/
theorem rtk_uh_sums_to_R (R T K ih : ℚ)
    (_hR0 : 0 ≤ R) (_hR1 : R ≤ 3/10) (_hT0 : 1/4 ≤ T) (_hT1 : T ≤ 36)
    (_hK0 : 1/5 ≤ K) (_hK1 : K ≤ 99/100) (_hih : 0 < ih)
    (hL : 2 ≤ rtk_len T K ih) :
    (rtk_uh R T K ih).sum = R := by
  have htp : (1 : ℚ) ≤ ((rtk_tp T ih : ℤ) : ℚ) := by
    exact_mod_cast one_le_rtk_tp T ih
  have htp0 : (0 : ℚ) < ((rtk_tp T ih : ℤ) : ℚ) := lt_of_lt_of_le one_pos htp
  have hnonneg : ∀ x ∈ rtk_raw T K ih, 0 ≤ x := by
    intro x hx
    obtain ⟨i, _, rfl⟩ := List.mem_map.1 hx
    by_cases h : (i : ℚ) ≤ ((rtk_tp T ih : ℤ) : ℚ)
    · simp only [rtk_rawEntry, if_pos h]
      exact div_nonneg (Nat.cast_nonneg i) (le_of_lt htp0)
    · simp only [rtk_rawEntry, if_neg h]
      exact le_max_right _ _
  have hmem : rtk_rawEntry T K ih 1 ∈ rtk_raw T K ih :=
    List.mem_map.2 ⟨1, List.mem_range.2 (lt_of_lt_of_le one_lt_two hL), rfl⟩
  have hf1 : 0 < rtk_rawEntry T K ih 1 := by
    simp only [rtk_rawEntry, Nat.cast_one, if_pos htp]
    exact div_pos one_pos htp0
  have hsum : 0 < (rtk_raw T K ih).sum :=
    lt_of_lt_of_le hf1 (List.single_le_sum hnonneg _ hmem)
  rw [rtk_uh_eq, sum_map_mul_div]
  exact mul_div_cancel_right₀ R (ne_of_gt hsum)

/-- Witness for `rtk_uh_sums_to_R` at `R=0.1, T=2h, K=0.5`, 15-minute
interval. -/
theorem rtk_uh_sums_witness :
    (0:ℚ) ≤ 1/10 ∧ 2 ≤ rtk_len 2 (1/2) (1/4) ∧ (rtk_uh (1/10) 2 (1/2) (1/4)).sum = 1/10 :=
  ⟨by norm_num, by decide,
   rtk_uh_sums_to_R (1/10) 2 (1/2) (1/4) (by norm_num) (by norm_num) (by norm_num)
     (by norm_num) (by norm_num) (by norm_num) (by norm_num) (by decide)⟩

/-- Counterexample to claim C2 as stated: at `R=0.1, T=0.25h, K=0.2` and
15-minute interval (all within the optimizer bounds) the hydrograph has a
single sample whose raw value is `0`; the normalisation divides by zero
(`NaN` in the source, `0` over `ℚ`) and the sum is not `R`. -/
theorem rtk_uh_sum_degenerate : (rtk_uh (1/10) (1/4) (1/5) (1/4)).sum ≠ 1/10 := by decide

/-- Claim C4 (amended): the length of the constructed hydrograph is
`round((1+K) · tp)` where `tp = max(round(T/interval), 1)` — the source
rounds `T/interval` to the integer peak index before applying `(1+K)`,
rather than rounding `(1+K)·(T/interval)` as the spec states. -/
theorem rtk_uh_length_eq (R T K ih : ℚ)
    (_hR0 : 0 ≤ R) (_hR1 : R ≤ 3/10) (_hT0 : 1/4 ≤ T) (_hT1 : T ≤ 36)
    (_hK0 : 1/5 ≤ K) (_hK1 : K ≤ 99/100) (_hih : 0 < ih) :
    (rtk_uh R T K ih).length = rtk_len T K ih := by
  rw [rtk_uh_eq]
  simp [rtk_raw]

/-- Witness for `rtk_uh_length_eq`. -/
theorem rtk_uh_length_witness :
    (rtk_uh (1/10) 2 (1/2) (1/4)).length = rtk_len 2 (1/2) (1/4) :=
  rtk_uh_length_eq (1/10) 2 (1/2) (1/4) (by norm_num) (by norm_num) (by norm_num)
    (by norm_num) (by norm_num) (by norm_num) (by norm_num)

/-- Counterexample to claim C4 as stated: at `T=0.6h, K=0.5`, 15-minute
interval, the source computes `tp = round(2.4) = 2` and length
`round(1.5·2) = 3`, while `round((1+K)·(T/interval)) = round(3.6) = 4`. -/
theorem rtk_uh_length_ne_spec :
    (rtk_uh (1/10) (3/5) (1/2) (1/4)).length ≠ spec_rtk_len (3/5) (1/2) (1/4) := by decide

/-- The table part of a `fit` call, when it succeeded. -/
def fitResult (p : Except DecompError DecompResult × Decomposer) : Option DecompResult :=
  p.1.toOption

/-- An optimisation stage that is never invoked in the verified runs. -/
def noRtk : RtkStage := fun _ _ _ _ => ⟨[], none, []⟩

/-- Configuration of the end-to-end scenario of §8.6: 15-minute interval,
GWI mode `avg_monthly` with average `1.0` and flat multipliers, default
dry criteria, no RTK fitting, clipping enabled. -/
def constCfg : Decomposer :=
  { interval := 15, tz := "UTC", gwi_mode := "avg_monthly", gwi_avg := some (some 1),
    gwi_monthly := List.replicate 12 1, lookback_h := 48, rain_thresh := 1/50,
    rtk_components := 0, optimize_method := "de_then_lbfgsb", clip_negative := true }

/-- 96 samples of constant flow `3.0` at 15-minute interval starting
Monday 2024-01-01 00:00. -/
def constFlow : List (Time × Val) := (List.range 96).map (fun i => (15 * i, some 3))

/-- The identically-zero rainfall series on the same grid. -/
def zeroRain : List (Time × Val) := (List.range 96).map (fun i => (15 * i, some 0))

/-- The §8.6 scenario run. -/
def constRun : Except DecompError DecompResult × Decomposer :=
  Decomposer.fit noRtk constCfg clock2024 constFlow (some zeroRain) none

set_option maxRecDepth 100000 in
/-- Claim C5: on the constant scenario (flow = GWI 1.0 + sanitary 2.0 for
96 samples at 15-minute interval, zero rainfall, `avg_monthly` GWI with
average 1.0 and flat multipliers, no RTK, clipping on), `fit` returns
`gwi = 1.0`, `bwwf + wwf = 2.0` and `wwf = 0` at every timestamp. -/
theorem fit_end_to_end_constant_scenario :
    (fitResult constRun).map (fun r => (r.gwi, List.zipWith vadd r.bwwf r.wwf, r.wwf)) =
      some (List.replicate 96 (some 1), List.replicate 96 (some 2),
        List.replicate 96 (some 0)) := by
  decide

/-- Configuration for small hourly-interval runs: `avg_monthly` GWI with
average 1.0, flat multipliers, no RTK, clipping enabled. -/
def hourCfg : Decomposer :=
  { interval := 60, tz := "UTC", gwi_mode := "avg_monthly", gwi_avg := some (some 1),
    gwi_monthly := List.replicate 12 1, lookback_h := 48, rain_thresh := 1/50,
    rtk_components := 0, optimize_method := "de_then_lbfgsb", clip_negative := true }

/-- A two-sample run (flow 3.0 then 1.0, hourly) on which the diurnal
pattern overshoots the first sample, so the clipped WWF breaks
conservation there. -/
def clipRun : Except DecompError DecompResult × Decomposer :=
  Decomposer.fit noRtk hourCfg clock2024 [(0, some 3), (60, some 1)] none none

/-- Counterexample to claim C1 as stated: with clipping enabled (the
default) the first row has `flow = 3` but `gwi + bwwf + wwf = 25` (the
raw residual `-22` was floored to `0`), so `flow = gwi + bwwf + wwf`
fails. -/
theorem fit_conservation_fails_with_clipping :
    (fitResult clipRun).map
      (fun r => (r.flow.getD 0 none,
        vadd (r.gwi.getD 0 none) (vadd (r.bwwf.getD 0 none) (r.wwf.getD 0 none)))) =
      some (some 3, some 25) ∧ ((some 3 : Val) ≠ (some 25 : Val)) := by
  decide

/-- A two-sample run (flow 3.0 then 0.5, hourly) whose hour-1 dry residual
is negative. -/
def negPatternRun : Except DecompError DecompResult × Decomposer :=
  Decomposer.fit noRtk hourCfg clock2024 [(0, some 3), (60, some (1/2))] none none

/-- Counterexample to claim C3 as stated: the weekday diurnal pattern of
this run has entry `-6` at hour 1 (a negative dry-weather residual makes
the renormalised pattern negative). -/
theorem bwwf_pattern_negative_entry :
    (fitResult negPatternRun).map
      (fun r => r.params.pattern.weekday_hourly.getD 1 none) = some (some (-6)) ∧
      ¬ (0:ℚ) ≤ -6 := by
  decide

/-- Configuration in `timeseries` GWI mode with no average supplied. -/
def tsCfg : Decomposer :=
  { interval := 15, tz := "UTC", gwi_mode := "timeseries", gwi_avg := none,
    gwi_monthly := List.replicate 12 1, lookback_h := 48, rain_thresh := 1/50,
    rtk_components := 0, optimize_method := "de_then_lbfgsb", clip_negative := true }

/-- A run whose GWI series lies off the flow grid (a single value at
minute 7, flow at minutes 0 and 15), so the reindexed GWI is entirely
missing and `_calc_gwi` overwrites `self.gwi_avg`. -/
def mutateRun : Except DecompError DecompResult × Decomposer :=
  Decomposer.fit noRtk tsCfg clock2024 [(0, some 5), (15, some 5)] none
    (some [(7, some 2)])

/-- Counterexample to claim C6 as stated: `fit` mutates the configuration.
`gwi_avg` was `None` at construction, and after the run it holds the
stored mean (`NaN` here, since no GWI values landed on the flow grid) —
the run still succeeds. -/
theorem fit_mutates_gwi_avg :
    mutateRun.2.gwi_avg = some none ∧ tsCfg.gwi_avg = none ∧
      (fitResult mutateRun).isSome = true := by
  decide

/-- Counterexample to claim C8 as stated: in `timeseries` mode with a
supplied GWI series holding one value — but at a timestamp (minute 15)
absent from the flow index `[0]` — and no average, `_calc_gwi` succeeds
yet returns a missing value at the only flow timestamp. -/
theorem calc_gwi_missing_despite_value :
    (calc_gwi tsCfg clock2024 [0] (some [(15, some 2)])).toOption.map Prod.fst =
      some [none] := by
  decide

lemma calc_gwi_cfg (cfg : Decomposer) (clock : Clock) (fidx : List Time)
    (gs : Option (List (Time × Val))) (g : List Val) (cfg' : Decomposer)
    (h : calc_gwi cfg clock fidx gs = .ok (g, cfg')) :
    ∃ v, cfg' = { cfg with gwi_avg := v } := by
  unfold calc_gwi at h
  split at h
  · cases gs with
    | none => exact absurd h (by simp)
    | some s =>
      simp only at h
      split at h
      · split at h
        · cases h
          exact ⟨_, rfl⟩
        · cases h
          exact ⟨cfg.gwi_avg, by cases cfg <;> rfl⟩
      · cases h
        exact ⟨cfg.gwi_avg, by cases cfg <;> rfl⟩
  · cases ha : cfg.gwi_avg with
    | none => rw [ha] at h; exact absurd h (by simp)
    | some av =>
      rw [ha] at h
      simp only at h
      cases h
      exact ⟨cfg.gwi_avg, by cases cfg <;> rfl⟩

/-- Claim C6 (amended): every configuration field except `gwi_avg` is
unchanged by `fit`. -/
theorem fit_preserves_config_except_gwi_avg (rtkStage : RtkStage) (cfg : Decomposer)
    (clock : Clock) (flow_df : List (Time × Val))
    (rain_df gwi_df : Option (List (Time × Val))) :
    ((Decomposer.fit rtkStage cfg clock flow_df rain_df gwi_df).2.interval = cfg.interval ∧
     (Decomposer.fit rtkStage cfg clock flow_df rain_df gwi_df).2.tz = cfg.tz ∧
     (Decomposer.fit rtkStage cfg clock flow_df rain_df gwi_df).2.gwi_mode = cfg.gwi_mode ∧
     (Decomposer.fit rtkStage cfg clock flow_df rain_df gwi_df).2.gwi_monthly = cfg.gwi_monthly) ∧
    ((Decomposer.fit rtkStage cfg clock flow_df rain_df gwi_df).2.lookback_h = cfg.lookback_h ∧
     (Decomposer.fit rtkStage cfg clock flow_df rain_df gwi_df).2.rain_thresh = cfg.rain_thresh ∧
     (Decomposer.fit rtkStage cfg clock flow_df rain_df gwi_df).2.rtk_components = cfg.rtk_components ∧
     (Decomposer.fit rtkStage cfg clock flow_df rain_df gwi_df).2.optimize_method = cfg.optimize_method ∧
     (Decomposer.fit rtkStage cfg clock flow_df rain_df gwi_df).2.clip_negative = cfg.clip_negative) := by
  unfold Decomposer.fit
  cases hg : calc_gwi cfg clock
      ((resample cfg.interval flow_df).map Prod.fst)
      (gwi_df.map (fun g => ((resample cfg.interval flow_df).map Prod.fst).zip
        (reindexNaN (resample cfg.interval g) ((resample cfg.interval flow_df).map Prod.fst)))) with
  | error e => simp [hg]
  | ok p =>
    obtain ⟨gv, cfg'⟩ := p
    obtain ⟨v, rfl⟩ := calc_gwi_cfg _ _ _ _ _ _ hg
    cases hr : rain_df.map (fun r => reindexFillZero (resample cfg.interval r)
        ((resample cfg.interval flow_df).map Prod.fst)) with
    | none => simp [hg, hr]
    | some rvals =>
      by_cases hc : cfg.rtk_components ≠ 0
      · simp [hg, hr, hc]
      · simp [hg, hr, hc]

/-- Claim C7: `fit` fails with the configuration error rather than
returning a result when mode `avg_monthly` has no average, or mode
`timeseries` has no GWI table. -/
theorem fit_raises_on_missing_gwi_inputs (rtkStage : RtkStage) (cfg : Decomposer)
    (clock : Clock) (flow_df : List (Time × Val))
    (rain_df gwi_df : Option (List (Time × Val))) :
    (cfg.gwi_mode = "avg_monthly" → cfg.gwi_avg = none →
      (Decomposer.fit rtkStage cfg clock flow_df rain_df gwi_df).1 = .error .missingGwiAvg) ∧
    (cfg.gwi_mode = "timeseries" → gwi_df = none →
      (Decomposer.fit rtkStage cfg clock flow_df rain_df gwi_df).1 = .error .missingGwiDf) := by
  constructor
  · intro hm ha
    have hg : ∀ fidx gs, calc_gwi cfg clock fidx gs = .error .missingGwiAvg := by
      intro fidx gs
      unfold calc_gwi
      rw [hm, ha]
      rw [if_neg (by decide)]
    unfold Decomposer.fit
    simp only [hg]
  · intro hm hd
    subst hd
    have hg : ∀ fidx, calc_gwi cfg clock fidx none = .error .missingGwiDf := by
      intro fidx
      unfold calc_gwi
      rw [hm, if_pos rfl]
    unfold Decomposer.fit
    simp only [Option.map_none', hg]

theorem fit_raises_on_missing_gwi_inputs_witness :
    (Decomposer.fit noRtk { hourCfg with gwi_avg := none } clock2024 [(0, some 3)] none none).1 =
      .error .missingGwiAvg ∧
    (Decomposer.fit noRtk tsCfg clock2024 [(0, some 3)] none none).1 =
      .error .missingGwiDf :=
  ⟨(fit_raises_on_missing_gwi_inputs noRtk _ clock2024 [(0, some 3)] none none).1 rfl rfl,
   (fit_raises_on_missing_gwi_inputs noRtk tsCfg clock2024 [(0, some 3)] none none).2 rfl rfl⟩

/-- Claim C10: with `rtk_components > 0` but no rainfall table, the RTK
stage is silently skipped: the WWF column is the (optionally clipped)
residual and the parameter record has no RTK triplets and no fit
metrics. -/
theorem fit_skips_rtk_without_rain (rtkStage : RtkStage) (cfg : Decomposer)
    (clock : Clock) (flow_df : List (Time × Val)) (gwi_df : Option (List (Time × Val)))
    (r : DecompResult)
    (hok : (Decomposer.fit rtkStage cfg clock flow_df none gwi_df).1 = .ok r) :
    r.params.rtk_triplets = none ∧ r.params.fit_metrics = none ∧ r.rainfall = none ∧
    r.wwf = (if cfg.clip_negative then
        (List.zipWith vsub (List.zipWith vsub r.flow r.gwi) r.bwwf).map
          (Option.map (fun x => max x 0))
      else List.zipWith vsub (List.zipWith vsub r.flow r.gwi) r.bwwf) := by
  unfold Decomposer.fit at hok
  simp only [Option.map_none'] at hok
  cases hg : calc_gwi cfg clock
      ((resample cfg.interval flow_df).map Prod.fst)
      (gwi_df.map (fun g => ((resample cfg.interval flow_df).map Prod.fst).zip
        (reindexNaN (resample cfg.interval g) ((resample cfg.interval flow_df).map Prod.fst)))) with
  | error e => rw [hg] at hok; simp at hok
  | ok p =>
    obtain ⟨gv, cfg'⟩ := p
    obtain ⟨v, rfl⟩ := calc_gwi_cfg _ _ _ _ _ _ hg
    rw [hg] at hok
    simp only [Except.ok.injEq] at hok
    subst hok
    by_cases hc : cfg.clip_negative
    · simp [hc]
    · simp [hc]

lemma zipWith_getD_some (g : Val → Val → Val) (a : List Val) :
    ∀ (b : List Val) (i : Nat) (w : ℚ),
      (List.zipWith g a b).getD i none = some w →
      g (a.getD i none) (b.getD i none) = some w := by
  induction a with
  | nil => intro b i w h; simp at h
  | cons x a' ih =>
    intro b i w h
    cases b with
    | nil => simp at h
    | cons y b' =>
      cases i with
      | zero => simpa using h
      | succ j => exact ih b' j w (by simpa using h)

lemma vsub_eq_some {u v : Val} {w : ℚ} (h : vsub u v = some w) :
    ∃ uq vq, u = some uq ∧ v = some vq ∧ uq - vq = w := by
  cases u with
  | none => simp [vsub] at h
  | some uq =>
    cases v with
    | none => simp [vsub] at h
    | some vq =>
      simp only [vsub, Option.some.injEq] at h
      exact ⟨uq, vq, rfl, rfl, h⟩

/-- Claim C1 (amended): when RTK fitting is disabled and negative-WWF
clipping is disabled, the output table satisfies
`flow = gwi + bwwf + wwf` at every timestamp where `wwf` is defined. -/
theorem fit_conserves_flow_unclipped (rtkStage : RtkStage) (cfg : Decomposer)
    (clock : Clock) (flow_df : List (Time × Val))
    (rain_df gwi_df : Option (List (Time × Val))) (r : DecompResult)
    (hclip : cfg.clip_negative = false) (hrtk : cfg.rtk_components = 0)
    (hok : (Decomposer.fit rtkStage cfg clock flow_df rain_df gwi_df).1 = .ok r) :
    ∀ i w, r.wwf.getD i none = some w →
      vadd (r.gwi.getD i none) (vadd (r.bwwf.getD i none) (some w)) = r.flow.getD i none := by
  unfold Decomposer.fit at hok
  simp only [] at hok
  cases hg : calc_gwi cfg clock
      ((resample cfg.interval flow_df).map Prod.fst)
      (gwi_df.map (fun g => ((resample cfg.interval flow_df).map Prod.fst).zip
        (reindexNaN (resample cfg.interval g) ((resample cfg.interval flow_df).map Prod.fst)))) with
  | error e => rw [hg] at hok; simp at hok
  | ok p =>
    obtain ⟨gv, cfg'⟩ := p
    obtain ⟨v, rfl⟩ := calc_gwi_cfg _ _ _ _ _ _ hg
    rw [hg] at hok
    have hwwf : r.wwf = List.zipWith vsub
        (List.zipWith vsub r.flow r.gwi) r.bwwf := by
      cases hr : rain_df.map (fun rr => reindexFillZero (resample cfg.interval rr)
          ((resample cfg.interval flow_df).map Prod.fst)) with
      | none =>
        rw [hr] at hok
        simp only [hclip, hrtk, Bool.false_eq_true, if_false, Except.ok.injEq] at hok
        subst hok
        rfl
      | some rvals =>
        rw [hr] at hok
        simp only [hclip, hrtk, Bool.false_eq_true, if_false, ne_eq,
          not_true_eq_false, Except.ok.injEq, if_neg] at hok
        subst hok
        rfl
    intro i w hw
    rw [hwwf] at hw
    obtain h1 := zipWith_getD_some vsub _ _ _ _ hw
    obtain ⟨uq, bq, hu, hb, hwq⟩ := vsub_eq_some h1
    obtain h2 := zipWith_getD_some vsub _ _ _ _ hu
    obtain ⟨fq, gq, hf, hgq, huq⟩ := vsub_eq_some h2
    rw [hf, hgq, hb, vadd, vadd]
    subst hwq huq
    norm_num

/-- A default `DecompResult` used to project optional run results. -/
def emptyResult : DecompResult :=
  { idx := [], flow := [], gwi := [], bwwf := [], wwf := [], rainfall := none,
    params := { gwi_mode := "", gwi_avg := none, gwi_monthly := [],
                pattern := { daily_avg_weekday := 0, daily_avg_weekend := 0,
                             weekday_hourly := [], weekend_hourly := [] },
                rtk_triplets := none, fit_metrics := none } }

/-- A one-sample hourly run with clipping disabled. -/
def unclippedCfg : Decomposer := { hourCfg with clip_negative := false }

/-- Its `fit` output. -/
def unclippedRun : Except DecompError DecompResult × Decomposer :=
  Decomposer.fit noRtk unclippedCfg clock2024 [(0, some 3)] none none

/-- The table of `unclippedRun`. -/
def unclippedRes : DecompResult := (fitResult unclippedRun).getD emptyResult

/-- Witness for `fit_conserves_flow_unclipped`: on the one-sample run the
residual WWF is `-46` and conservation holds exactly. -/
theorem fit_conserves_flow_unclipped_witness :
    vadd (unclippedRes.gwi.getD 0 none) (vadd (unclippedRes.bwwf.getD 0 none) (some (-46))) =
      unclippedRes.flow.getD 0 none :=
  fit_conserves_flow_unclipped noRtk unclippedCfg clock2024 [(0, some 3)] none none
    unclippedRes rfl rfl rfl 0 (-46) (by decide)

/-- A configuration requesting one RTK component. -/
def rtkSkipCfg : Decomposer := { hourCfg with rtk_components := 1 }

/-- Its `fit` output on a run with no rainfall table. -/
def rtkSkipRun : Except DecompError DecompResult × Decomposer :=
  Decomposer.fit noRtk rtkSkipCfg clock2024 [(0, some 3)] none none

/-- The table of `rtkSkipRun`. -/
def rtkSkipRes : DecompResult := (fitResult rtkSkipRun).getD emptyResult

/-- Witness for `fit_skips_rtk_without_rain`. -/
theorem fit_skips_rtk_without_rain_witness :
    rtkSkipRes.params.rtk_triplets = none ∧ rtkSkipRes.params.fit_metrics = none ∧
    rtkSkipRes.rainfall = none ∧
    rtkSkipRes.wwf = (if rtkSkipCfg.clip_negative then
        (List.zipWith vsub (List.zipWith vsub rtkSkipRes.flow rtkSkipRes.gwi) rtkSkipRes.bwwf).map
          (Option.map (fun x => max x 0))
      else List.zipWith vsub (List.zipWith vsub rtkSkipRes.flow rtkSkipRes.gwi) rtkSkipRes.bwwf) :=
  fit_skips_rtk_without_rain noRtk rtkSkipCfg clock2024 [(0, some 3)] none rtkSkipRes rfl

lemma getD_zipWith_lt {α β γ : Type} (h : α → β → γ) :
    ∀ (a : List α) (b : List β) (i : Nat) (d : γ) (da : α) (db : β),
      i < a.length → i < b.length →
      (List.zipWith h a b).getD i d = h (a.getD i da) (b.getD i db) := by
  intro a
  induction a with
  | nil => intro b i d da db hia _; simp at hia
  | cons x a' ih =>
    intro b i d da db hia hib
    cases b with
    | nil => simp at hib
    | cons y b' =>
      cases i with
      | zero => simp
      | succ j =>
        simp only [List.zipWith_cons_cons, List.getD_cons_succ]
        exact ih b' j d da db (Nat.lt_of_succ_lt_succ hia) (Nat.lt_of_succ_lt_succ hib)

/-- A cell is a nonnegative finite value. -/
def ValNonneg (v : Val) : Prop := ∃ q, v = some q ∧ 0 ≤ q

lemma filterMap_id_all_some (l : List Val) (h : ∀ v ∈ l, ValNonneg v) :
    (l.filterMap id).length = l.length := by
  induction l with
  | nil => rfl
  | cons v t ih =>
    obtain ⟨q, rfl, _⟩ := h v (List.mem_cons_self v t)
    simp only [List.filterMap_cons, id, List.length_cons]
    rw [ih (fun w hw => h w (List.mem_cons_of_mem _ hw))]

lemma nanMean_nonneg (l : List Val) (h : ∀ v ∈ l, ValNonneg v) (hne : l ≠ []) :
    ValNonneg (nanMean l) := by
  have hlen := filterMap_id_all_some l h
  have hpos : 0 < l.length := List.length_pos.2 hne
  have hsum : 0 ≤ (l.filterMap id).sum := by
    apply List.sum_nonneg
    intro x hx
    obtain ⟨v, hv, hvx⟩ := List.mem_filterMap.1 hx
    obtain ⟨q, rfl, hq⟩ := h v hv
    simp only [id] at hvx
    cases hvx
    exact hq
  refine ⟨(l.filterMap id).sum / ((l.filterMap id).length : ℚ), ?_, ?_⟩
  · unfold nanMean
    rw [if_neg (by omega)]
  · exact div_nonneg hsum (Nat.cast_nonneg _)

lemma hourlyMean_nonneg (clock : Clock) (rows : List (Time × Val))
    (h : ∀ r ∈ rows, ValNonneg r.2) (hh : Nat) :
    ValNonneg (hourlyMean clock rows hh) := by
  unfold hourlyMean
  by_cases hg : (rows.filter (fun r => clock.hour r.1 = hh)).length = 0
  · rw [if_pos hg]
    exact ⟨0, rfl, le_refl 0⟩
  · rw [if_neg hg]
    apply nanMean_nonneg
    · intro v hv
      obtain ⟨r, hr, rfl⟩ := List.mem_map.1 hv
      exact h r (List.mem_of_mem_filter hr)
    · intro hmap
      rw [List.map_eq_nil] at hmap
      exact hg (by rw [hmap]; rfl)

lemma nanSum_nonneg (l : List Val) (h : ∀ v ∈ l, ValNonneg v) : 0 ≤ nanSum l := by
  apply List.sum_nonneg
  intro x hx
  obtain ⟨v, hv, hvx⟩ := List.mem_filterMap.1 hx
  obtain ⟨q, rfl, hq⟩ := h v hv
  simp only [id] at hvx
  cases hvx
  exact hq

lemma classPattern_nonneg (clock : Clock) (rows : List (Time × Val))
    (h : ∀ r ∈ rows, ValNonneg r.2) :
    ∀ v ∈ (classPattern clock rows).2, ValNonneg v := by
  unfold classPattern
  have hhourly : ∀ v ∈ (List.range 24).map (fun hh => hourlyMean clock rows hh), ValNonneg v := by
    intro v hv
    obtain ⟨hh, _, rfl⟩ := List.mem_map.1 hv
    exact hourlyMean_nonneg clock rows h hh
  cases hd : nanMean (rows.map Prod.snd) with
  | none =>
    intro v hv
    simp only at hv
    obtain rfl := List.eq_of_mem_replicate hv
    exact ⟨0, rfl, le_refl 0⟩
  | some a =>
    by_cases ha : 0 < a
    · simp only [if_pos ha]
      by_cases hs : nanSum ((List.range 24).map (fun hh => hourlyMean clock rows hh)) ≠ 0
      · simp only [if_pos hs]
        intro v hv
        obtain ⟨u, hu, rfl⟩ := List.mem_map.1 hv
        obtain ⟨q, rfl, hq⟩ := hhourly u hu
        refine ⟨_, rfl, ?_⟩
        have hsumnn := nanSum_nonneg _ hhourly
        have hspos : 0 < nanSum ((List.range 24).map (fun hh => hourlyMean clock rows hh)) :=
          lt_of_le_of_ne hsumnn (Ne.symm (by exact hs))
        have := div_nonneg hq (le_of_lt hspos)
        positivity
      · simp only [if_neg hs]
        intro v hv
        obtain ⟨_, _, rfl⟩ := List.mem_map.1 hv
        exact ⟨1 / 24 * a * 24, rfl, by positivity⟩
    · simp only [if_neg ha]
      intro v hv
      obtain rfl := List.eq_of_mem_replicate hv
      exact ⟨0, rfl, le_refl 0⟩

lemma getD_some_lt {α : Type} (l : List α) (i : Nat) (q d : α) (hne : q ≠ d)
    (h : l.getD i d = q) : i < l.length := by
  by_contra hge
  rw [List.getD_eq_default] at h
  · exact hne h.symm
  · omega

lemma subRows_nonneg (clock : Clock) (idx : List Time) (flow gwi : List Val)
    (dry : List Bool) (wk : Bool)
    (hres : ∀ i, i < idx.length → dry.getD i false = true →
      ∃ s, vsub (flow.getD i none) (gwi.getD i none) = some s ∧ 0 ≤ s) :
    ∀ r ∈ subRows clock idx
      (List.zipWith (fun v d => if d then v else none) (List.zipWith vsub flow gwi) dry)
      dry wk, ValNonneg r.2 := by
  intro r hr
  obtain ⟨i, hi, hf⟩ := List.mem_filterMap.1 hr
  rw [List.mem_range] at hi
  by_cases hc : dry.getD i false = true ∧ inWeekday clock (idx.getD i 0) = wk
  · rw [if_pos hc] at hf
    cases hf
    obtain ⟨s, hsome, hs⟩ := hres i hi hc.1
    refine ⟨s, ?_, hs⟩
    have hif : i < flow.length := by
      apply getD_some_lt flow i _ none _ rfl
      intro hnone
      rw [hnone] at hsome
      simp [vsub] at hsome
    have hig : i < gwi.length := by
      apply getD_some_lt gwi i _ none _ rfl
      intro hnone
      rw [hnone] at hsome
      cases hfl : flow.getD i none
      all_goals rw [hfl] at hsome; simp [vsub] at hsome
    have hid : i < dry.length := getD_some_lt dry i true false (by simp) hc.1
    have hiz : i < (List.zipWith vsub flow gwi).length := by
      rw [List.length_zipWith]; omega
    show (List.zipWith (fun v d => if d then v else none)
      (List.zipWith vsub flow gwi) dry).getD i none = some s
    rw [getD_zipWith_lt _ _ _ _ _ none false hiz hid, hc.1,
      getD_zipWith_lt vsub _ _ _ _ none none hif hig]
    simpa using hsome
  · rw [if_neg hc] at hf
    cases hf

/-- Claim C3 (amended): both diurnal pattern arrays computed by
`_calc_bwwf` consist of nonnegative finite values, provided every
dry-timestamp sanitary residual `flow − gwi` it aggregates is present and
nonnegative. -/
theorem bwwf_patterns_nonneg (clock : Clock) (idx : List Time) (flow gwi : List Val)
    (dry : List Bool)
    (hres : ∀ i, i < idx.length → dry.getD i false = true →
      ∃ s, vsub (flow.getD i none) (gwi.getD i none) = some s ∧ 0 ≤ s) :
    (∀ v ∈ (calc_bwwf clock idx flow gwi dry).2.weekday_hourly, ValNonneg v) ∧
    (∀ v ∈ (calc_bwwf clock idx flow gwi dry).2.weekend_hourly, ValNonneg v) := by
  constructor
  · exact classPattern_nonneg clock _ (subRows_nonneg clock idx flow gwi dry true hres)
  · exact classPattern_nonneg clock _ (subRows_nonneg clock idx flow gwi dry false hres)

/-- Witness for `bwwf_patterns_nonneg` on a two-sample hourly run with
residuals `2` at both timestamps. -/
theorem bwwf_patterns_nonneg_witness :
    (∀ v ∈ (calc_bwwf clock2024 [0, 60] [some 3, some 3] [some 1, some 1]
      [true, true]).2.weekday_hourly, ValNonneg v) ∧
    (∀ v ∈ (calc_bwwf clock2024 [0, 60] [some 3, some 3] [some 1, some 1]
      [true, true]).2.weekend_hourly, ValNonneg v) :=
  bwwf_patterns_nonneg clock2024 [0, 60] [some 3, some 3] [some 1, some 1] [true, true]
    (by
      intro i hi hd
      simp only [List.length_cons, List.length_nil] at hi
      match i, hi with
      | 0, _ => exact ⟨2, by decide, by norm_num⟩
      | 1, _ => exact ⟨2, by decide, by norm_num⟩)

lemma getD_map_range {α : Type} (f : Nat → α) (n p : Nat) (d : α) (hp : p < n) :
    ((List.range n).map f).getD p d = f p := by
  rw [List.getD_eq_getElem?_getD, List.getElem?_map, List.getElem?_range hp]
  rfl

lemma getD_map_lt {α β : Type} (f : α → β) (l : List α) (i : Nat) (d : β) (d' : α)
    (hi : i < l.length) : (l.map f).getD i d = f (l.getD i d') := by
  rw [List.getD_eq_getElem?_getD, List.getElem?_map,
    List.getElem?_eq_getElem hi, List.getD_eq_getElem l d' hi]
  rfl

lemma pandasInterp_length (limit : Option Nat) (both : Bool) (vals : List Val) :
    (pandasInterp limit both vals).length = vals.length := by
  simp [pandasInterp]

lemma pandasInterp_getD (limit : Option Nat) (both : Bool) (vals : List Val)
    (p : Nat) (hp : p < vals.length) :
    (pandasInterp limit both vals).getD p none =
      match vals.getD p none with
      | some v => some v
      | none => interpFill limit both vals p := by
  unfold pandasInterp
  rw [getD_map_range _ _ _ _ hp]

lemma findPrev_isSome (vals : List Val) (j p : Nat) (hj : j < p)
    (hv : vals.getD j none ≠ none) : (findPrev vals p).isSome := by
  rw [Option.isSome_iff_ne_none]
  intro hnone
  unfold findPrev at hnone
  rw [List.findSome?_eq_none_iff] at hnone
  have := hnone j (by rw [List.mem_reverse, List.mem_range]; exact hj)
  rw [Option.map_eq_none'] at this
  exact hv this

lemma findNext_isSome (vals : List Val) (j p : Nat) (hj : p < j) (hjl : j < vals.length)
    (hv : vals.getD j none ≠ none) : (findNext vals p).isSome := by
  rw [Option.isSome_iff_ne_none]
  intro hnone
  unfold findNext at hnone
  rw [List.findSome?_eq_none_iff] at hnone
  have hmem : j ∈ (List.range (vals.length - (p + 1))).map (fun k => p + 1 + k) := by
    rw [List.mem_map]
    exact ⟨j - (p + 1), by rw [List.mem_range]; omega, by omega⟩
  have := hnone j hmem
  rw [Option.map_eq_none'] at this
  exact hv this

lemma interpFill_total (vals : List Val) (p : Nat) (hp : p < vals.length)
    (hnone : vals.getD p none = none)
    (hex : ∃ j, j < vals.length ∧ vals.getD j none ≠ none) :
    interpFill none true vals p ≠ none := by
  obtain ⟨j, hjl, hjv⟩ := hex
  have hjp : j ≠ p := by
    intro hh
    exact hjv (hh ▸ hnone)
  unfold interpFill
  have hok : (match findPrev vals p with
      | some iq => limitOK none (p - iq.1)
      | none => false) = true ∨
      (true && (match findNext vals p with
      | some jq => limitOK none (jq.1 - p)
      | none => false)) = true := by
    rcases Nat.lt_or_ge j p with hlt | hge
    · left
      have := findPrev_isSome vals j p hlt hjv
      obtain ⟨iq, hiq⟩ := Option.isSome_iff_exists.1 this
      rw [hiq]
      rfl
    · right
      have hgt : p < j := by omega
      have := findNext_isSome vals j p hgt hjl hjv
      obtain ⟨jq, hjq⟩ := Option.isSome_iff_exists.1 this
      rw [hjq]
      rfl
  rcases hok with h | h
  all_goals simp only [h]
  · cases hpv : findPrev vals p with
    | none => rw [hpv] at h; simp at h
    | some iq =>
      obtain ⟨i, a⟩ := iq
      simp only [Bool.true_or, if_true]
      cases hnv : findNext vals p with
      | none => simp
      | some jq => obtain ⟨jj, b⟩ := jq; simp
  · simp only [Bool.or_true, if_true]
    cases hnv : findNext vals p with
    | none => rw [hnv] at h; simp at h
    | some jq =>
      obtain ⟨jj, b⟩ := jq
      cases hpv : findPrev vals p with
      | none => simp
      | some iq => obtain ⟨i, a⟩ := iq; simp

lemma monthMult_ne_none (cfg : Decomposer) (a : ℚ) (m : Nat) (h1 : 1 ≤ m) (h2 : m ≤ 12) :
    monthMult cfg a m ≠ none := by
  unfold monthMult
  rw [if_pos ⟨h1, h2⟩]
  exact Option.some_ne_none _

lemma getD_mem {α : Type} (l : List α) (i : Nat) (d : α) (hi : i < l.length) :
    l.getD i d ∈ l := by
  rw [List.getD_eq_getElem l d hi]
  exact List.getElem_mem hi

/-- Claim C8 (amended): `_calc_gwi` produces a value at every flow
timestamp provided the mode's required input is usable: a finite average
in `avg_monthly` mode; in `timeseries` mode a supplied series with at
least one value at a flow timestamp, or a finite average as fallback. -/
theorem calc_gwi_total_of_inputs_available (cfg : Decomposer) (clock : Clock)
    (fidx : List Time) (s : List (Time × Val))
    (hm : ∀ t ∈ fidx, 1 ≤ clock.month t ∧ clock.month t ≤ 12)
    (H : (cfg.gwi_mode ≠ "timeseries" ∧ ∃ a, cfg.gwi_avg = some (some a))
       ∨ (cfg.gwi_mode = "timeseries" ∧
           ((∃ t ∈ fidx, lookupT s t ≠ none) ∨ ∃ a, cfg.gwi_avg = some (some a)))) :
    ∃ out cfg', calc_gwi cfg clock fidx (some s) = .ok (out, cfg') ∧
      out.length = fidx.length ∧ ∀ i, i < fidx.length → out.getD i none ≠ none := by
  have hmonth : ∀ (a : ℚ) (i : Nat), i < fidx.length →
      (fidx.map (fun t => (some a).bind (fun a' => monthMult cfg a' (clock.month t)))).getD i none ≠ none := by
    intro a i hi
    rw [getD_map_lt _ _ _ _ 0 hi]
    simp only [Option.some_bind]
    obtain ⟨h1, h2⟩ := hm (fidx.getD i 0) (getD_mem fidx i 0 hi)
    exact monthMult_ne_none cfg a _ h1 h2
  rcases H with ⟨hmode, a, havg⟩ | ⟨hmode, hrest⟩
  · refine ⟨fidx.map (fun t => (some a).bind (fun a' => monthMult cfg a' (clock.month t))),
      cfg, ?_, ?_, ?_⟩
    · unfold calc_gwi
      rw [if_neg hmode, havg]
    · simp
    · exact hmonth a
  · -- timeseries mode
    have hrelen : (fidx.map (lookupT s)).length = fidx.length := by simp
    have hglen : (pandasInterp none true (fidx.map (lookupT s))).length = fidx.length := by
      rw [pandasInterp_length, hrelen]
    have hvalid_of_any_false :
        (pandasInterp none true (fidx.map (lookupT s))).any (fun v => v.isNone) = false →
        ∀ i, i < fidx.length →
          (pandasInterp none true (fidx.map (lookupT s))).getD i none ≠ none := by
      intro hany i hi
      rw [List.any_eq_false] at hany
      have hmem := getD_mem (pandasInterp none true (fidx.map (lookupT s))) i none
        (by rw [hglen]; exact hi)
      intro hc
      have := hany _ hmem
      rw [hc] at this
      exact this rfl
    cases hany : (pandasInterp none true (fidx.map (lookupT s))).any (fun v => v.isNone) with
    | false =>
      refine ⟨pandasInterp none true (fidx.map (lookupT s)), cfg, ?_, hglen,
        hvalid_of_any_false hany⟩
      unfold calc_gwi
      rw [if_pos hmode]
      simp only [hany, Bool.false_eq_true, if_false]
    | true =>
      rcases hrest with ⟨t, ht, htv⟩ | ⟨a, havg⟩
      · -- a value lies on the flow index: interpolation fills everything,
        -- contradicting `any isNone = true`
        exfalso
        obtain ⟨k, hk, hkt⟩ := List.mem_iff_getElem.1 ht
        have hre : (fidx.map (lookupT s)).getD k none ≠ none := by
          rw [getD_map_lt _ _ _ _ 0 hk, List.getD_eq_getElem fidx 0 hk, hkt]
          exact htv
        have hexre : ∃ j, j < (fidx.map (lookupT s)).length ∧
            (fidx.map (lookupT s)).getD j none ≠ none :=
          ⟨k, by rw [hrelen]; exact hk, hre⟩
        rw [List.any_eq_true] at hany
        obtain ⟨x, hx, hxn⟩ := hany
        obtain ⟨i, hil, hig⟩ := List.mem_iff_getElem.1 hx
        rw [Option.isNone_iff_eq_none] at hxn
        subst hxn
        have hi : i < (fidx.map (lookupT s)).length := by
          rw [hrelen]; rw [hglen] at hil; exact hil
        have := pandasInterp_getD none true (fidx.map (lookupT s)) i hi
        rw [List.getD_eq_getElem _ none hil, hig] at this
        cases hrei : (fidx.map (lookupT s)).getD i none with
        | some v => rw [hrei] at this; simp at this
        | none =>
          rw [hrei] at this
          simp only at this
          exact interpFill_total _ i hi hrei hexre this.symm
      · -- fall back to the monthly model built from the finite average
        refine ⟨fillna (pandasInterp none true (fidx.map (lookupT s)))
          (fidx.map (fun t => (some a).bind (fun a' => monthMult cfg a' (clock.month t)))),
          cfg, ?_, ?_, ?_⟩
        · unfold calc_gwi
          rw [if_pos hmode]
          simp only [hany, if_true, havg, Option.isNone_some, Bool.false_eq_true, if_false,
            Option.getD_some]
        · unfold fillna
          rw [List.length_zipWith, hglen]
          simp [min_eq_left, le_refl]
        · intro i hi
          unfold fillna
          rw [getD_zipWith_lt _ _ _ _ _ none none (by rw [hglen]; exact hi) (by simp; exact hi)]
          cases hgd : (pandasInterp none true (fidx.map (lookupT s))).getD i none with
          | some v => simp
          | none => simpa using hmonth a i hi

/-- Witness for `calc_gwi_total_of_inputs_available`: `avg_monthly` mode
with a finite average, single flow timestamp. -/
theorem calc_gwi_total_witness :
    ∃ out cfg', calc_gwi hourCfg clock2024 [0] (some []) = .ok (out, cfg') ∧
      out.length = [0].length ∧ ∀ i, i < [0].length → out.getD i none ≠ none :=
  calc_gwi_total_of_inputs_available hourCfg clock2024 [0] []
    (by intro t ht; simp only [List.mem_singleton] at ht; subst ht; constructor
        all_goals decide)
    (Or.inl ⟨by decide, 1, rfl⟩)

lemma sortByTime_id : ∀ (l : List (Time × Val)),
    List.Chain' (fun a b => a.1 < b.1) l → sortByTime l = l := by
  intro l hl
  induction l with
  | nil => rfl
  | cons p rest ih =>
    rw [sortByTime, ih hl.tail]
    cases rest with
    | nil => rfl
    | cons q rest' =>
      rw [insertByTime, if_pos (List.chain'_cons.1 hl).1]

lemma chain'_zip_fst : ∀ (ts : List Time) (vs : List Val),
    List.Chain' (· < ·) ts →
    List.Chain' (fun (a b : Time × Val) => a.1 < b.1) (ts.zip vs) := by
  intro ts
  induction ts with
  | nil => intro vs _; simp
  | cons t1 ts' ih =>
    intro vs h
    cases vs with
    | nil => simp
    | cons v1 vs' =>
      rw [List.zip_cons_cons]
      cases ts' with
      | nil => simp
      | cons t2 ts'' =>
        cases vs' with
        | nil => simp
        | cons v2 vs'' =>
          rw [List.zip_cons_cons, List.chain'_cons]
          refine ⟨(List.chain'_cons.1 h).1, ?_⟩
          rw [← List.zip_cons_cons]
          exact ih (v2 :: vs'') (List.chain'_cons.1 h).2

lemma chain'_arith (t0 d n : Nat) (hd : 0 < d) :
    List.Chain' (· < ·) ((List.range n).map (fun i => t0 + i * d)) := by
  rw [List.chain'_map]
  apply List.Chain'.imp _ ((List.pairwise_lt_range n).chain')
  intro a b hab
  have : a * d < b * d := (Nat.mul_lt_mul_right hd).2 hab
  omega

lemma map_getD_range {α : Type} (l : List α) (d : α) :
    (List.range l.length).map (fun i => l.getD i d) = l := by
  apply List.ext_getElem
  · simp
  · intro n h1 h2
    simp only [List.getElem_map, List.getElem_range]
    exact List.getD_eq_getElem l d h2

lemma lookupT_zip_arith (d : Nat) (hd : 0 < d) : ∀ (vals : List Val) (t0 i : Nat),
    i < vals.length →
    lookupT (((List.range vals.length).map (fun k => t0 + k * d)).zip vals) (t0 + i * d) =
      vals.getD i none := by
  intro vals
  induction vals with
  | nil => intro t0 i hi; simp at hi
  | cons v vs ih =>
    intro t0 i hi
    rw [List.length_cons, List.range_succ_eq_map, List.map_cons, List.map_map,
      List.zip_cons_cons]
    have hmap : List.map ((fun k => t0 + k * d) ∘ Nat.succ) (List.range vs.length) =
        List.map (fun k => (t0 + d) + k * d) (List.range vs.length) := by
      apply List.map_congr_left
      intro a _
      simp only [Function.comp, Nat.succ_mul]
      omega
    rw [hmap]
    cases i with
    | zero =>
      rw [lookupT, if_pos rfl]
      rfl
    | succ j =>
      have hne : ¬ (t0 + 0 * d = t0 + (j + 1) * d) := by
        have : 0 < (j + 1) * d := Nat.mul_pos (Nat.succ_pos j) hd
        omega
      rw [lookupT, if_neg hne]
      have harg : t0 + (j + 1) * d = (t0 + d) + j * d := by
        rw [Nat.succ_mul]
        omega
      rw [harg, ih (t0 + d) j (Nat.lt_of_succ_lt_succ hi)]
      rfl

lemma getLast?_zip_fst : ∀ (ts : List Time) (vs : List Val), ts.length = vs.length →
    (ts.zip vs).getLast?.map Prod.fst = ts.getLast? := by
  intro ts
  induction ts with
  | nil => intro vs _; simp
  | cons t ts' ih =>
    intro vs hlen
    cases vs with
    | nil => simp at hlen
    | cons v vs' =>
      rw [List.zip_cons_cons]
      cases ts' with
      | nil =>
        cases vs' with
        | nil => rfl
        | cons _ _ => simp at hlen
      | cons t2 ts'' =>
        cases vs' with
        | nil => simp at hlen
        | cons v2 vs'' =>
          rw [List.zip_cons_cons, List.getLast?_cons_cons, List.getLast?_cons_cons,
            ← List.zip_cons_cons]
          exact ih (v2 :: vs'') (by simpa using hlen)

/-- Unfolding of `_resample` once the sorted series is known to be a
nonempty cons. -/
lemma resample_cons (d : Nat) (df : List (Time × Val)) (p : Time × Val)
    (rest : List (Time × Val)) (hsort : sortByTime df = p :: rest) :
    resample d df =
      (gridTimes p.1 d (((p :: rest).getLast?.getD p).1)).zip
        (pandasInterp (some 2) false
          ((gridTimes p.1 d (((p :: rest).getLast?.getD p).1)).map (lookupT (p :: rest)))) := by
  unfold resample
  simp only [hsort]

/-- Claim C9: `_resample` is the identity on a series whose timestamps
already form an arithmetic progression at the configured interval —
identical timestamps, and every present value returned unchanged (only
missing values may be gap-filled). -/
theorem resample_idempotent_on_uniform (t0 d : Nat) (vals : List Val) (hd : 0 < d) :
    ((resample d (((List.range vals.length).map (fun i => t0 + i * d)).zip vals)).map Prod.fst =
        (List.range vals.length).map (fun i => t0 + i * d)) ∧
    (∀ i q, vals.getD i none = some q →
      (resample d (((List.range vals.length).map (fun i => t0 + i * d)).zip vals)).getD i
          (0, none) = (t0 + i * d, some q)) := by
  cases vals with
  | nil =>
    constructor
    · rfl
    · intro i q h
      simp at h
  | cons v0 vs =>
    set n := (v0 :: vs).length with hn
    set times := (List.range n).map (fun i => t0 + i * d) with htimes
    set df := times.zip (v0 :: vs) with hdf
    have hnpos : 0 < n := by rw [hn]; simp
    have hlen : times.length = n := by simp [htimes]
    have hsort : sortByTime df = df :=
      sortByTime_id df (chain'_zip_fst times (v0 :: vs) (chain'_arith t0 d n hd))
    have hhead : df = (t0 + 0 * d, v0) :: (((List.range vs.length).map
        (fun i => (t0 + d) + i * d)).zip vs) := by
      rw [hdf, htimes, hn, List.length_cons, List.range_succ_eq_map, List.map_cons,
        List.map_map, List.zip_cons_cons]
      congr 2
      apply List.map_congr_left
      intro a _
      simp only [Function.comp, Nat.succ_mul]
      omega
    have hlast : ((df.getLast?.getD (t0 + 0 * d, v0)).1) = t0 + (n - 1) * d := by
      have h1 := getLast?_zip_fst times (v0 :: vs) (by simp [htimes, hn])
      have h2 : times.getLast? = some (t0 + (n - 1) * d) := by
        rw [List.getLast?_eq_getElem?, List.getElem?_map, hlen,
          List.getElem?_range (by omega : n - 1 < n)]
        rfl
      rw [h2] at h1
      obtain ⟨pr, hpr, hpr1⟩ := Option.map_eq_some'.1 h1
      rw [hpr]
      exact hpr1
    have hgrid : gridTimes (t0 + 0 * d) d (t0 + (n - 1) * d) = times := by
      rw [gridTimes, htimes]
      have hsub : t0 + (n - 1) * d - (t0 + 0 * d) = (n - 1) * d := by
        simp only [Nat.zero_mul, Nat.add_zero]
        omega
      have hcount : (t0 + (n - 1) * d - (t0 + 0 * d)) / d + 1 = n := by
        rw [hsub, Nat.mul_div_cancel _ hd]
        omega
      rw [hcount]
      apply List.map_congr_left
      intro a _
      simp only [Nat.zero_mul, Nat.add_zero]
    have hlooked : times.map (lookupT df) = v0 :: vs := by
      rw [htimes, List.map_map]
      have heq : List.map (lookupT df ∘ fun i => t0 + i * d) (List.range n) =
          List.map (fun i => (v0 :: vs).getD i none) (List.range n) := by
        apply List.map_congr_left
        intro a ha
        rw [List.mem_range] at ha
        simp only [Function.comp]
        rw [hdf, htimes, hn]
        exact lookupT_zip_arith d hd (v0 :: vs) t0 a (by rw [← hn]; exact ha)
      rw [heq, hn, map_getD_range]
    have hres : resample d df = times.zip (pandasInterp (some 2) false (v0 :: vs)) := by
      have h0 := resample_cons d df (t0 + 0 * d, v0) _ (by rw [hsort]; exact hhead)
      rw [← hhead] at h0
      rw [h0, hlast, hgrid, hlooked]
    have hilen : (pandasInterp (some 2) false (v0 :: vs)).length = n := by
      rw [pandasInterp_length, hn]
    constructor
    · rw [hres]
      exact List.map_fst_zip times _ (by rw [hilen, hlen])
    · intro i q hq
      have hi : i < n := by
        rw [hn]
        exact getD_some_lt (v0 :: vs) i (some q) none (Option.some_ne_none q) hq
      rw [hres]
      have hzip : times.zip (pandasInterp (some 2) false (v0 :: vs)) =
          List.zipWith Prod.mk times (pandasInterp (some 2) false (v0 :: vs)) := rfl
      rw [hzip, getD_zipWith_lt Prod.mk _ _ i (0, none) 0 none (by rw [hlen]; exact hi)
        (by rw [hilen]; exact hi)]
      have ht : times.getD i 0 = t0 + i * d := by
        rw [htimes]
        exact getD_map_range _ n i 0 hi
      have hv : (pandasInterp (some 2) false (v0 :: vs)).getD i none = some q := by
        rw [pandasInterp_getD (some 2) false (v0 :: vs) i (by rw [← hn]; exact hi), hq]
      rw [ht, hv]

/-- Witness for `resample_idempotent_on_uniform` on a three-sample grid
with one missing value. -/
theorem resample_idempotent_witness :
    ((resample 15 (((List.range ([some 1, none, some 2] : List Val).length).map
        (fun i => 0 + i * 15)).zip [some 1, none, some 2])).map Prod.fst =
      (List.range ([some 1, none, some 2] : List Val).length).map (fun i => 0 + i * 15)) ∧
    (resample 15 (((List.range ([some 1, none, some 2] : List Val).length).map
        (fun i => 0 + i * 15)).zip [some 1, none, some 2])).getD 0 (0, none) =
      (0 + 0 * 15, some 1) :=
  ⟨(resample_idempotent_on_uniform 0 15 [some 1, none, some 2] (by norm_num)).1,
   (resample_idempotent_on_uniform 0 15 [some 1, none, some 2] (by norm_num)).2 0 1 (by decide)⟩
